import Mathlib

/-!
Shallow embedding of the v0-style chat client (`src/App.tsx`,
`src/services/geminiService.ts`, `src/types.ts`): session store, streaming
accumulator, code-fence extractor and Model Gateway request builder, with
theorems checking the specification's claims against the code.
-/

/-! ## String utilities modelling the JavaScript string operations used. -/

/-- Model of `s.substring(0, n)`: the first `n` characters of `s`. -/
def jsSubstring (s : String) (n : Nat) : String :=
  String.mk (s.data.take n)

/-- Auxiliary search on character lists: does `nee` occur inside `hay`? -/
def inclAux : List Char → List Char → Bool
  | [], nee => nee.isEmpty
  | h :: t, nee => nee.isPrefixOf (h :: t) || inclAux t nee

/-- Model of JavaScript `hay.includes(nee)`: substring containment. -/
def strIncludes (hay nee : String) : Bool :=
  inclAux hay.data nee.data

/-- Splits `hay` at the first occurrence of `nee`: returns the part before
and the part after that occurrence, or `none` when `nee` does not occur. -/
def splitFirst : List Char → List Char → Option (List Char × List Char)
  | [], nee => if nee.isEmpty then some ([], []) else none
  | h :: t, nee =>
    if nee.isPrefixOf (h :: t) then some ([], (h :: t).drop nee.length)
    else (splitFirst t nee).map (fun p => (h :: p.1, p.2))

/-- Model of JavaScript `s.replace(pat, rep)` with string arguments:
replaces the first occurrence of `pat` by `rep`, or returns `s` unchanged
when `pat` does not occur. -/
def replaceFirst (s pat rep : String) : String :=
  match splitFirst s.data pat.data with
  | none => s
  | some (b, a) => String.mk (b ++ rep.data ++ a)

/-- Concatenation of a list of text fragments, in order. -/
def concatFragments : List String → String
  | [] => ""
  | c :: cs => c ++ concatFragments cs

/-! ### Basic lemmas about the string utilities. -/

theorem str_data_append (s t : String) : (s ++ t).data = s.data ++ t.data :=
  String.data_append s t

theorem str_append_empty (s : String) : s ++ "" = s := by
  cases s with
  | mk d => apply String.ext; simp [str_data_append]

theorem str_append_assoc (s t u : String) : s ++ t ++ u = s ++ (t ++ u) := by
  apply String.ext; simp [str_data_append]

theorem str_left_cancel {s a b : String} (h : s ++ a = s ++ b) : a = b := by
  apply String.ext
  have hd := congrArg String.data h
  simp only [str_data_append] at hd
  exact List.append_cancel_left hd

theorem isPrefixOf_append {l₁ l₂ : List Char} (l₃ : List Char)
    (h : l₁.isPrefixOf l₂ = true) : l₁.isPrefixOf (l₂ ++ l₃) = true := by
  induction l₁ generalizing l₂ with
  | nil => simp [List.isPrefixOf]
  | cons a t ih =>
    cases l₂ with
    | nil => simp [List.isPrefixOf] at h
    | cons b t2 =>
      simp only [List.isPrefixOf, List.cons_append, Bool.and_eq_true,
        beq_iff_eq] at h ⊢
      exact ⟨h.1, ih h.2⟩

theorem inclAux_append {hay nee : List Char} (more : List Char)
    (h : inclAux hay nee = true) : inclAux (hay ++ more) nee = true := by
  induction hay with
  | nil =>
    simp only [inclAux, List.isEmpty_iff] at h
    subst h
    cases more with
    | nil => simp [inclAux]
    | cons a t => simp [inclAux, List.isPrefixOf]
  | cons a t ih =>
    simp only [inclAux, Bool.or_eq_true, List.cons_append] at h ⊢
    rcases h with h | h
    · exact Or.inl (isPrefixOf_append more h)
    · exact Or.inr (ih h)

/-- Substring containment is preserved when the haystack grows on the right. -/
theorem strIncludes_append {s nee : String} (t : String)
    (h : strIncludes s nee = true) : strIncludes (s ++ t) nee = true := by
  unfold strIncludes at h ⊢
  rw [str_data_append]
  exact inclAux_append t.data h

theorem splitFirst_eq {hay nee b a : List Char}
    (h : splitFirst hay nee = some (b, a)) : hay = b ++ nee ++ a := by
  induction hay generalizing b a with
  | nil =>
    by_cases he : nee.isEmpty
    · simp only [splitFirst, he, if_pos, Option.some.injEq, Prod.mk.injEq] at h
      rcases h with ⟨hb, ha⟩
      subst hb; subst ha
      simp [List.isEmpty_iff.mp he]
    · simp [splitFirst, he] at h
  | cons x t ih =>
    by_cases hp : nee.isPrefixOf (x :: t) = true
    · rcases List.isPrefixOf_iff_prefix.mp hp with ⟨rest, hrest⟩
      simp only [splitFirst, hp, if_pos, Option.some.injEq, Prod.mk.injEq] at h
      rcases h with ⟨hb, ha⟩
      subst hb; subst ha
      rw [List.nil_append, ← hrest, List.drop_left]
    · cases hsp : splitFirst t nee with
      | none => simp [splitFirst, hp, hsp] at h
      | some p =>
        obtain ⟨b2, a2⟩ := p
        simp only [splitFirst, hp, if_neg, hsp, if_false, Option.map_some',
          Option.some.injEq, Prod.mk.injEq, Bool.false_eq_true] at h
        obtain ⟨hb, ha⟩ := h
        subst hb; subst ha
        simp [ih hsp]

/-! ## Data model (`src/types.ts`). -/

/-- `FileAttachment` from `src/types.ts`.  Optional fields that JavaScript
leaves `undefined` are modelled with `Bool`/`Option` defaults. -/
structure FileAttachment where
  name : String
  type : String
  data : String
  preview : String
  isText : Bool := false
  textContent : Option String := none
deriving Repr, DecidableEq

/-- The role of a chat message. -/
inductive Role where
  | user
  | model
deriving Repr, DecidableEq

/-- `Message` from `src/types.ts`. -/
structure Message where
  id : String
  role : Role
  text : String
  attachments : List FileAttachment := []
  timestamp : Nat
  error : Bool := false
  isPreviewable : Bool := false
deriving Repr, DecidableEq

/-- `ChatSession` from `src/types.ts`. -/
structure ChatSession where
  id : String
  title : String
  messages : List Message
  createdAt : Nat
  lastModified : Nat
deriving Repr, DecidableEq

/-! ## Session utilities (`src/App.tsx`). -/

/-- The fixed text of the welcome message in `createNewSession`. -/
def welcomeText : String :=
  "I\x27m ready. I can build web apps, debug code, and analyze images. \n\nAsk me to create a login form, a dashboard, or a game, and I\x27ll generate a live preview for you."

/-- `createNewSession` from `src/App.tsx`: the fresh session produced at
startup fallback, by the new-project button and by delete-of-last-session.
`now` models `Date.now()`. -/
def createNewSession (now : Nat) : ChatSession :=
  { id := toString now
    title := "New Project"
    messages := [
      { id := "welcome"
        role := Role.model
        text := welcomeText
        timestamp := now }]
    createdAt := now
    lastModified := now }

/-- `handleDeleteSession` from `src/App.tsx` (lines 166-179): filters out the
sessions with the given id; if nothing remains, installs a fresh session,
otherwise moves the active pointer to the first remaining session when the
active one was deleted.  Returns the new collection and active id. -/
def handleDeleteSession (sessions : List ChatSession) (currentSessionId : String)
    (id : String) (now : Nat) : List ChatSession × String :=
  match sessions.filter (fun s => s.id ≠ id) with
  | [] =>
    let fresh := createNewSession now
    ([fresh], fresh.id)
  | s :: rest =>
    (s :: rest, if currentSessionId = id then s.id else currentSessionId)

/-- The title computation inside `handleSubmit` (`src/App.tsx` line 283):
`session.title === 'New Project' ? (textToSend.substring(0, 30) || 'Image Analysis') : session.title`. -/
def submitTitle (title textToSend : String) : String :=
  if title = "New Project" then
    (if jsSubstring textToSend 30 = "" then "Image Analysis" else jsSubstring textToSend 30)
  else title

/-- The session updater applied by `handleSubmit` when appending the user
message (`src/App.tsx` lines 279-284). -/
def applyUserSubmit (s : ChatSession) (textToSend : String) (userMessage : Message)
    (now : Nat) : ChatSession :=
  { s with
    messages := s.messages ++ [userMessage]
    lastModified := now
    title := submitTitle s.title textToSend }

/-- `updateCurrentSession` from `src/App.tsx` (lines 250-252): applies an
updater to every session whose id equals the captured current id. -/
def updateCurrentSession (sessions : List ChatSession) (currentSessionId : String)
    (updater : ChatSession → ChatSession) : List ChatSession :=
  sessions.map (fun s => if s.id = currentSessionId then updater s else s)

/-! ## Streaming accumulator (`src/App.tsx`, `handleSubmit`). -/

/-- The opening marker of an html code fence. -/
def htmlFenceMarker : String := "```html"

/-- The per-message effect of the `onChunk` callback (`src/App.tsx` lines
309-317): the matching model message gets the chunk appended and its
previewable flag recomputed from the grown text. -/
def applyChunkMsg (m : Message) (modelMessageId chunk : String) : Message :=
  if m.id = modelMessageId then
    { m with
      text := m.text ++ chunk
      isPreviewable := strIncludes (m.text ++ chunk) htmlFenceMarker }
  else m

/-- One `onChunk` update over the message list. -/
def applyChunk (msgs : List Message) (modelMessageId chunk : String) : List Message :=
  msgs.map (fun m => applyChunkMsg m modelMessageId chunk)

/-- A whole stream: the `onChunk` update applied once per fragment, in
arrival order. -/
def applyChunks (msgs : List Message) (modelMessageId : String)
    (chunks : List String) : List Message :=
  chunks.foldl (fun ms c => applyChunk ms modelMessageId c) msgs

/-- The fixed error suffix appended by the catch branch of `handleSubmit`. -/
def errorSuffix : String := "\n\n*Error generating response. Please try again.*"

/-- The per-message effect of the catch branch (`src/App.tsx` lines 323-330). -/
def applyErrorMsg (m : Message) (modelMessageId : String) : Message :=
  if m.id = modelMessageId then
    { m with error := true, text := m.text ++ errorSuffix }
  else m

/-- The catch branch of `handleSubmit` over the whole session collection:
`updateCurrentSession` with the error annotation mapped over the messages. -/
def handleStreamError (sessions : List ChatSession) (currentSessionId : String)
    (modelMessageId : String) : List ChatSession :=
  updateCurrentSession sessions currentSessionId
    (fun s => { s with messages := s.messages.map (fun m => applyErrorMsg m modelMessageId) })

/-! ## Model Gateway request builder (`src/services/geminiService.ts`). -/

/-- One part of a Gemini request: inline binary data or plain text. -/
inductive RequestPart where
  | inlineData (mimeType : String) (data : String)
  | textPart (t : String)
deriving Repr, DecidableEq

/-- JavaScript truthiness of `att.isText && att.textContent`. -/
def attTextTruthy (att : FileAttachment) : Bool :=
  att.isText && (match att.textContent with
    | some s => !(s == "")
    | none => false)

/-- The part built for one attachment by `streamGeminiResponse`
(`src/services/geminiService.ts`): a filename-tagged text part for truthy
text attachments, inline binary data otherwise. -/
def attPart (att : FileAttachment) : RequestPart :=
  if attTextTruthy att then
    RequestPart.textPart ("[File: " ++ att.name ++ "]\n" ++ att.textContent.getD "" ++ "\n")
  else
    RequestPart.inlineData att.type att.data

/-- The `parts` array built by `streamGeminiResponse`: one part per
attachment in list order, then the prompt as a text part when non-empty. -/
def buildParts (prompt : String) (attachments : List FileAttachment) : List RequestPart :=
  attachments.map attPart ++ (if prompt ≠ "" then [RequestPart.textPart prompt] else [])

/-! ## Code-fence extractor (`src/App.tsx`, extraction `useEffect`). -/

/-- Body of the first fenced block opened by `marker` and closed by the next
triple-backtick fence, as matched by the lazy regexes in `src/App.tsx` lines
134-136 (no match when the marker never occurs or the fence never closes). -/
def firstFenceWith (text : String) (marker : String) : Option String :=
  match splitFirst text.data marker.data with
  | none => none
  | some (_, rest) =>
    match splitFirst rest "```".data with
    | none => none
    | some (body, _) => some (String.mk body)

/-- The `htmlMatch`/`cssMatch` bodies: first fence tagged with `tag`. -/
def firstFence (text : String) (tag : String) : Option String :=
  firstFenceWith text ("```" ++ tag)

/-- Remainder of the text after the leftmost js/javascript fence marker, as
matched by the regex alternation `(?:javascript|js)` (the two markers can
never match at the same position, and the alternation tries `javascript`
first). -/
def firstFenceJsAux : List Char → Option (List Char)
  | [] => none
  | c :: t =>
    if "```javascript".data.isPrefixOf (c :: t) then
      some ((c :: t).drop "```javascript".data.length)
    else if "```js".data.isPrefixOf (c :: t) then
      some ((c :: t).drop "```js".data.length)
    else firstFenceJsAux t

/-- The `jsMatch` body: text between the leftmost js/javascript fence marker
and the next triple-backtick fence. -/
def firstFenceJs (text : String) : Option String :=
  match firstFenceJsAux text.data with
  | none => none
  | some rest =>
    match splitFirst rest "```".data with
    | none => none
    | some (body, _) => some (String.mk body)

/-- The CSS-injection step (`src/App.tsx` lines 143-145): when a css fence
exists and the html body does not already contain a style tag, the css is
wrapped in a style block placed before the first closing head tag. -/
def cssStep (html : String) (cssBody : Option String) : String :=
  match cssBody with
  | none => html
  | some css =>
    if strIncludes html "<style>" then html
    else replaceFirst html "</head>" ("<style>" ++ css ++ "</style></head>")

/-- The JS-injection step (`src/App.tsx` lines 147-149): when a js fence
exists and the (possibly css-injected) html does not contain a script tag,
the js is wrapped in a script block placed before the first closing body
tag. -/
def jsStep (html : String) (jsBody : Option String) : String :=
  match jsBody with
  | none => html
  | some js =>
    if strIncludes html "<script>" then html
    else replaceFirst html "</body>" ("<script>" ++ js ++ "</script></body>")

/-- The composite preview document assembled by the extraction `useEffect`
(`src/App.tsx` lines 131-154) from a model message's text: `none` when no
html fence is matched. -/
def buildComposite (text : String) : Option String :=
  match firstFence text "html" with
  | none => none
  | some html => some (jsStep (cssStep html (firstFence text "css")) (firstFenceJs text))

/-! ## Helper lemmas about the session operations. -/

theorem filter_of_all_ne {l : List ChatSession} {id : String}
    (h : ∀ x ∈ l, x.id ≠ id) : l.filter (fun s => s.id ≠ id) = l := by
  induction l with
  | nil => rfl
  | cons a t ih =>
    have ha : a.id ≠ id := h a (List.mem_cons_self a t)
    have ht : ∀ x ∈ t, x.id ≠ id := fun x hx => h x (List.mem_cons_of_mem a hx)
    rw [List.filter_cons, if_pos (by simpa using ha), ih ht]

theorem filter_removes_unique {l1 l2 : List ChatSession} {s : ChatSession} {id : String}
    (hs : s.id = id) (h1 : ∀ x ∈ l1, x.id ≠ id) (h2 : ∀ x ∈ l2, x.id ≠ id) :
    (l1 ++ s :: l2).filter (fun x => x.id ≠ id) = l1 ++ l2 := by
  rw [List.filter_append, filter_of_all_ne h1, List.filter_cons,
    if_neg (by simp [hs]), filter_of_all_ne h2]

/-! ## Claim C9: fresh sessions are non-empty and carry the welcome message. -/

/-- C9: every freshly created session (the value of `createNewSession`, used
at startup fallback, by the new-project operation and by delete-of-last-
session) has title `New Project` and exactly one message, a model-role
welcome message with the fixed text; deleting the only session installs
exactly such a session. -/
theorem fresh_session_shape (now : Nat) (s : ChatSession) (cur : String) :
    (createNewSession now).title = "New Project" ∧
    (createNewSession now).messages.length = 1 ∧
    (∀ m ∈ (createNewSession now).messages,
      m.role = Role.model ∧ m.text = welcomeText) ∧
    handleDeleteSession [s] cur s.id now =
      ([createNewSession now], (createNewSession now).id) := by
  refine ⟨rfl, rfl, ?_, ?_⟩
  · intro m hm
    simp only [createNewSession, List.mem_singleton] at hm
    subst hm
    exact ⟨rfl, rfl⟩
  · simp [handleDeleteSession, List.filter]

/-! ## Claim C2: the session title rules. -/

/-- C2, counterexample: the code never appends an ellipsis to a truncated
title (a 44-character first message yields the bare 30-character cut), and
the title is not assigned at most once: a first message whose 30-character
cut is `New Project` leaves the title open, and the next submission
reassigns it. -/
theorem title_claim_counterexample :
    submitTitle "New Project" "This prompt is long enough to exceed the cap" =
      "This prompt is long enough to " ∧
    submitTitle "New Project" "This prompt is long enough to exceed the cap" ≠
      "This prompt is long enough to " ++ "..." ∧
    submitTitle "New Project" "This prompt is long enough to exceed the cap" ≠
      "This prompt is long enough to " ++ "…" ∧
    submitTitle "New Project" "New Project" = "New Project" ∧
    submitTitle (submitTitle "New Project" "New Project") "Make a game" =
      "Make a game" := by
  refine ⟨?_, by decide, by decide, by decide, by decide⟩
  decide

theorem jsSubstring_empty_iff (s : String) (n : Nat) (hn : 0 < n) :
    jsSubstring s n = "" ↔ s = "" := by
  constructor
  · intro h
    have hd := congrArg String.data h
    simp only [jsSubstring] at hd
    rcases List.take_eq_nil_iff.mp hd with h0 | h0
    · exact absurd h0 (Nat.pos_iff_ne_zero.mp hn)
    · exact String.ext h0
  · intro h
    subst h
    apply String.ext
    simp [jsSubstring]

/-- C2, amended: a submission updates the title only while it still equals
the initial `New Project`; it is then set to the first 30 characters of the
submitted text, with no ellipsis, or to `Image Analysis` when the text is
empty; a title different from `New Project` is never changed, so once the
assigned title differs from `New Project` no later submission alters it. -/
theorem title_update_characterization (title textToSend t2 : String) :
    (title ≠ "New Project" → submitTitle title textToSend = title) ∧
    (title = "New Project" → textToSend = "" →
      submitTitle title textToSend = "Image Analysis") ∧
    (title = "New Project" → textToSend ≠ "" →
      submitTitle title textToSend = jsSubstring textToSend 30) ∧
    (submitTitle title textToSend ≠ "New Project" →
      submitTitle (submitTitle title textToSend) t2 = submitTitle title textToSend) := by
  have keep : ∀ a b : String, a ≠ "New Project" → submitTitle a b = a := by
    intro a b hh
    simp [submitTitle, hh]
  refine ⟨keep title textToSend, ?_, ?_, fun h => keep _ t2 h⟩
  · intro h he
    subst h; subst he
    rfl
  · intro h he
    subst h
    have : jsSubstring textToSend 30 ≠ "" :=
      fun hc => he ((jsSubstring_empty_iff textToSend 30 (by norm_num)).mp hc)
    simp [submitTitle, this]

/-- C2, witness: a concrete short first prompt becomes the title verbatim. -/
theorem title_update_witness :
    submitTitle "New Project" "Make a login form" = "Make a login form" := by
  have h := (title_update_characterization "New Project" "Make a login form" "x").2.2.1
    rfl (by decide)
  rw [h]
  decide

/-! ## Claims C3 and C10: the delete operation. -/

/-- C3: the delete operation never yields an empty collection; with distinct
session ids, deleting a session from a collection of size greater than one
removes exactly that session (here the target sits between `l1` and `l2`,
whose members all carry other ids); deleting the only remaining session
yields exactly the one-element collection holding a fresh session. -/
theorem delete_session_invariant :
    (∀ (sessions : List ChatSession) (cur id : String) (now : Nat),
      1 ≤ ((handleDeleteSession sessions cur id now).1).length) ∧
    (∀ (l1 l2 : List ChatSession) (s : ChatSession) (cur id : String) (now : Nat),
      s.id = id → (∀ x ∈ l1, x.id ≠ id) → (∀ x ∈ l2, x.id ≠ id) →
      0 < l1.length + l2.length →
      (handleDeleteSession (l1 ++ s :: l2) cur id now).1 = l1 ++ l2) ∧
    (∀ (s : ChatSession) (cur : String) (now : Nat),
      handleDeleteSession [s] cur s.id now =
        ([createNewSession now], (createNewSession now).id)) := by
  refine ⟨?_, ?_, ?_⟩
  · intro sessions cur id now
    unfold handleDeleteSession
    cases hf : sessions.filter (fun s => s.id ≠ id) with
    | nil => simp
    | cons a t => simp
  · intro l1 l2 s cur id now hs h1 h2 hlen
    unfold handleDeleteSession
    rw [filter_removes_unique hs h1 h2]
    cases hc : l1 ++ l2 with
    | nil =>
      rcases List.append_eq_nil.mp hc with ⟨e1, e2⟩
      subst e1; subst e2
      simp at hlen
    | cons a t => simp
  · intro s cur now
    simp [handleDeleteSession, List.filter]

/-- C3, witness: deleting the second of two sessions leaves exactly the
first, and deleting a lone session leaves one fresh session. -/
theorem delete_session_invariant_witness :
    (handleDeleteSession [createNewSession 1, createNewSession 2] "1" "2" 9).1 =
      [createNewSession 1] ∧
    handleDeleteSession [createNewSession 5] "5" "5" 9 =
      ([createNewSession 9], (createNewSession 9).id) := by
  constructor
  · exact delete_session_invariant.2.1 [createNewSession 1] [] (createNewSession 2)
      "1" "2" 9 rfl (by decide) (by decide) (by decide)
  · exact delete_session_invariant.2.2 (createNewSession 5) "5" 9

/-- C10: deleting a session whose id differs from the active id, in a
collection of size greater than one with distinct ids, removes exactly the
one session with that id, keeps every remaining session and their relative
order intact, and leaves the active session id unchanged. -/
theorem delete_other_session_frame (l1 l2 : List ChatSession) (s : ChatSession)
    (cur id : String) (now : Nat)
    (hs : s.id = id) (h1 : ∀ x ∈ l1, x.id ≠ id) (h2 : ∀ x ∈ l2, x.id ≠ id)
    (hcur : cur ≠ id) (hlen : 0 < l1.length + l2.length) :
    handleDeleteSession (l1 ++ s :: l2) cur id now = (l1 ++ l2, cur) := by
  unfold handleDeleteSession
  rw [filter_removes_unique hs h1 h2]
  cases hc : l1 ++ l2 with
  | nil =>
    rcases List.append_eq_nil.mp hc with ⟨e1, e2⟩
    subst e1; subst e2
    simp at hlen
  | cons a t => simp [hcur]

/-- C10, witness: deleting session `3` while session `2` is active keeps
sessions `1` and `2` in order and keeps the active id `2`. -/
theorem delete_other_session_frame_witness :
    handleDeleteSession
        [createNewSession 1, createNewSession 2, createNewSession 3] "2" "3" 9 =
      ([createNewSession 1, createNewSession 2], "2") :=
  delete_other_session_frame [createNewSession 1, createNewSession 2] []
    (createNewSession 3) "2" "3" 9 rfl (by decide) (by decide) (by decide) (by decide)

/-! ## Claim C4: streaming accumulation. -/

theorem applyChunkMsg_id (m : Message) (mid c : String) :
    (applyChunkMsg m mid c).id = m.id := by
  unfold applyChunkMsg
  by_cases h : m.id = mid <;> simp [h]

theorem applyChunk_text_map (msgs : List Message) (mid c : String) :
    (applyChunk msgs mid c).map Message.text =
      msgs.map (fun m => if m.id = mid then m.text ++ c else m.text) := by
  unfold applyChunk
  rw [List.map_map]
  apply List.map_congr_left
  intro m _
  by_cases h : m.id = mid <;> simp [applyChunkMsg, h]

theorem applyChunks_cons (msgs : List Message) (mid c : String) (cs : List String) :
    applyChunks msgs mid (c :: cs) = applyChunks (applyChunk msgs mid c) mid cs := rfl

theorem applyChunks_text (cs : List String) (msgs : List Message) (mid : String) :
    (applyChunks msgs mid cs).map Message.text =
      msgs.map (fun m => if m.id = mid then m.text ++ concatFragments cs else m.text) := by
  induction cs generalizing msgs with
  | nil =>
    show msgs.map Message.text = _
    apply List.map_congr_left
    intro m _
    by_cases h : m.id = mid <;> simp [concatFragments, h, str_append_empty]
  | cons c cs ih =>
    rw [applyChunks_cons, ih]
    unfold applyChunk
    rw [List.map_map]
    apply List.map_congr_left
    intro m _
    by_cases h : m.id = mid <;>
      simp [applyChunkMsg, h, concatFragments, str_append_assoc]

/-- C4: applying the `onChunk` update once per fragment in arrival order
appends exactly the in-order concatenation of the fragments to the tracked
model message (and leaves every other message text unchanged); applying
fragment lists whose concatenations differ yields different texts. -/
theorem streaming_accumulation_order (msgs : List Message) (mid : String)
    (chunks other : List String) (m : Message)
    (hne : concatFragments chunks ≠ concatFragments other) (hm : m.id = mid) :
    ((applyChunks msgs mid chunks).map Message.text =
      msgs.map (fun x => if x.id = mid then x.text ++ concatFragments chunks else x.text)) ∧
    (applyChunks [m] mid chunks).map Message.text ≠
      (applyChunks [m] mid other).map Message.text := by
  refine ⟨applyChunks_text chunks msgs mid, ?_⟩
  rw [applyChunks_text, applyChunks_text]
  simp only [List.map_cons, List.map_nil, hm, if_pos]
  intro h
  rw [List.cons.injEq] at h
  exact hne (str_left_cancel h.1)

/-- C4, witness: fragments applied in arrival order to an empty model
message yield exactly their in-order concatenation, and the reversed order
yields a different text. -/
theorem streaming_accumulation_order_witness :
    ((applyChunks [{ id := "m1", role := Role.model, text := "", timestamp := 0 }]
        "m1" ["Hello", ", ", "world"]).map Message.text = ["Hello, world"]) ∧
    (applyChunks [{ id := "m1", role := Role.model, text := "", timestamp := 0 }]
        "m1" ["Hello", ", ", "world"]).map Message.text ≠
      (applyChunks [{ id := "m1", role := Role.model, text := "", timestamp := 0 }]
        "m1" ["world", ", ", "Hello"]).map Message.text := by
  have h := streaming_accumulation_order
    [{ id := "m1", role := Role.model, text := "", timestamp := 0 }] "m1"
    ["Hello", ", ", "world"] ["world", ", ", "Hello"]
    { id := "m1", role := Role.model, text := "", timestamp := 0 }
    (by decide) rfl
  refine ⟨?_, h.2⟩
  rw [h.1]
  decide

/-! ## Claim C6: the catch branch of `handleSubmit`. -/

theorem updateCurrentSession_getElem (sessions : List ChatSession) (cur : String)
    (f : ChatSession → ChatSession) (i : Nat) (hi : i < sessions.length)
    (hi2 : i < (updateCurrentSession sessions cur f).length) :
    (updateCurrentSession sessions cur f)[i] =
      if sessions[i].id = cur then f sessions[i] else sessions[i] := by
  unfold updateCurrentSession at hi2 ⊢
  simp [List.getElem_map]

theorem map_applyErrorMsg_getElem (msgs : List Message) (mid : String) (j : Nat)
    (hj : j < msgs.length)
    (hj2 : j < (msgs.map (fun m => applyErrorMsg m mid)).length) :
    (msgs.map (fun m => applyErrorMsg m mid))[j] = applyErrorMsg msgs[j] mid := by
  simp [List.getElem_map]

/-- C6: when the gateway call fails, the message carrying the captured model
message id inside the session carrying the captured session id gets the
fixed error suffix appended once and its error flag set, with all its other
fields intact; every other message of that session and every other session
are unchanged, and no session is added or removed. -/
theorem gateway_failure_error_annotation (sessions : List ChatSession)
    (cur mid : String) (i : Nat) (hi : i < sessions.length)
    (hi2 : i < (handleStreamError sessions cur mid).length) :
    (handleStreamError sessions cur mid).length = sessions.length ∧
    (sessions[i].id ≠ cur → (handleStreamError sessions cur mid)[i] = sessions[i]) ∧
    (sessions[i].id = cur →
      ((handleStreamError sessions cur mid)[i]).id = sessions[i].id ∧
      ((handleStreamError sessions cur mid)[i]).title = sessions[i].title ∧
      ((handleStreamError sessions cur mid)[i]).createdAt = sessions[i].createdAt ∧
      ((handleStreamError sessions cur mid)[i]).lastModified = sessions[i].lastModified ∧
      ((handleStreamError sessions cur mid)[i]).messages.length = sessions[i].messages.length ∧
      (∀ (j : Nat) (hj : j < (sessions[i]).messages.length)
        (hj2 : j < ((handleStreamError sessions cur mid)[i]).messages.length),
        (sessions[i].messages[j].id ≠ mid →
          ((handleStreamError sessions cur mid)[i]).messages[j] = sessions[i].messages[j]) ∧
        (sessions[i].messages[j].id = mid →
          ((handleStreamError sessions cur mid)[i]).messages[j] =
            { sessions[i].messages[j] with
                error := true
                text := sessions[i].messages[j].text ++ errorSuffix }))) := by
  have hlen : (handleStreamError sessions cur mid).length = sessions.length := by
    simp [handleStreamError, updateCurrentSession]
  have hElem := updateCurrentSession_getElem sessions cur
    (fun s => { s with messages := s.messages.map (fun m => applyErrorMsg m mid) })
    i hi hi2
  refine ⟨hlen, ?_, ?_⟩
  · intro hne
    show (updateCurrentSession sessions cur _)[i] = sessions[i]
    rw [hElem, if_neg hne]
  · intro heq
    have hcase : (handleStreamError sessions cur mid)[i] =
        { sessions[i] with
            messages := (sessions[i]).messages.map (fun m => applyErrorMsg m mid) } := by
      show (updateCurrentSession sessions cur _)[i] = _
      rw [hElem, if_pos heq]
    have hmsgs : ((handleStreamError sessions cur mid)[i]).messages =
        (sessions[i]).messages.map (fun m => applyErrorMsg m mid) := by
      rw [hcase]
    refine ⟨by rw [hcase], by rw [hcase], by rw [hcase], by rw [hcase],
      by rw [hmsgs]; simp, ?_⟩
    intro j hj hj2
    have hget : ((handleStreamError sessions cur mid)[i]).messages[j] =
        applyErrorMsg ((sessions[i]).messages[j]) mid := by
      rw [List.getElem_of_eq hmsgs hj2]
      exact map_applyErrorMsg_getElem _ mid j hj (by simpa using hj)
    constructor
    · intro hmne
      rw [hget]
      unfold applyErrorMsg
      rw [if_neg hmne]
    · intro hmeq
      rw [hget]
      unfold applyErrorMsg
      rw [if_pos hmeq]

/-- C6, witness: a failed call annotates the streamed model message of the
active session and leaves the other session and the user message intact. -/
theorem gateway_failure_error_annotation_witness :
    handleStreamError
        [{ id := "b", title := "Other", messages := [], createdAt := 0, lastModified := 0 },
         { id := "a", title := "Proj",
           messages := [{ id := "u1", role := Role.user, text := "hi", timestamp := 0 },
                        { id := "m1", role := Role.model, text := "part", timestamp := 1 }],
           createdAt := 0, lastModified := 0 }] "a" "m1" =
      [{ id := "b", title := "Other", messages := [], createdAt := 0, lastModified := 0 },
       { id := "a", title := "Proj",
         messages := [{ id := "u1", role := Role.user, text := "hi", timestamp := 0 },
                      { id := "m1", role := Role.model, text := "part" ++ errorSuffix,
                        timestamp := 1, error := true }],
         createdAt := 0, lastModified := 0 }] := by
  have h := gateway_failure_error_annotation
    [{ id := "b", title := "Other", messages := [], createdAt := 0, lastModified := 0 },
     { id := "a", title := "Proj",
       messages := [{ id := "u1", role := Role.user, text := "hi", timestamp := 0 },
                    { id := "m1", role := Role.model, text := "part", timestamp := 1 }],
       createdAt := 0, lastModified := 0 }] "a" "m1" 1 (by decide) (by decide)
  have hmm := ((h.2.2 rfl).2.2.2.2.2 1 (by decide) (by decide)).2 rfl
  decide

/-! ## Claims C7 and C8: the previewable flag. -/

/-- C7: after a fragment is applied, the tracked model message's previewable
flag is true exactly when the accumulated text including that fragment
contains the opening html fence marker (no closing fence is required), and
the accumulated text is the previous text with the fragment appended. -/
theorem previewable_iff_marker (msgs : List Message) (mid chunk : String)
    (i : Nat) (hi : i < msgs.length)
    (hi2 : i < (applyChunk msgs mid chunk).length)
    (hm : msgs[i].id = mid) :
    (((applyChunk msgs mid chunk)[i]).isPreviewable = true ↔
      strIncludes (msgs[i].text ++ chunk) htmlFenceMarker = true) ∧
    ((applyChunk msgs mid chunk)[i]).text = msgs[i].text ++ chunk := by
  have hget : (applyChunk msgs mid chunk)[i] = applyChunkMsg msgs[i] mid chunk := by
    unfold applyChunk
    simp [List.getElem_map]
  rw [hget]
  unfold applyChunkMsg
  rw [if_pos hm]
  exact ⟨Iff.rfl, rfl⟩

/-- C7, witness: the marker alone, with the fence still unclosed, already
flips the previewable flag on. -/
theorem previewable_iff_marker_witness :
    ((applyChunk [{ id := "m1", role := Role.model, text := "Sure! ", timestamp := 0 }]
        "m1" "```html<p>hi")[0]).isPreviewable = true := by
  have h := previewable_iff_marker
    [{ id := "m1", role := Role.model, text := "Sure! ", timestamp := 0 }]
    "m1" "```html<p>hi" 0 (by decide) (by decide) rfl
  exact h.1.mpr (by decide)

theorem applyChunk_length (msgs : List Message) (mid c : String) :
    (applyChunk msgs mid c).length = msgs.length := by
  simp [applyChunk]

theorem applyChunks_length (msgs : List Message) (mid : String) (cs : List String) :
    (applyChunks msgs mid cs).length = msgs.length := by
  induction cs generalizing msgs with
  | nil => rfl
  | cons c cs ih => rw [applyChunks_cons, ih, applyChunk_length]

theorem applyChunks_getElem (cs : List String) (msgs : List Message) (mid : String)
    (i : Nat) (hi : i < msgs.length)
    (hi2 : i < (applyChunks msgs mid cs).length) :
    (applyChunks msgs mid cs)[i] =
      cs.foldl (fun m c => applyChunkMsg m mid c) msgs[i] := by
  induction cs generalizing msgs with
  | nil => rfl
  | cons c cs ih =>
    have h0 : i < (applyChunk msgs mid c).length := by
      rw [applyChunk_length]; exact hi
    have h1 : i < (applyChunks (applyChunk msgs mid c) mid cs).length := by
      rw [applyChunks_length, applyChunk_length]; exact hi
    have hmap : (applyChunk msgs mid c)[i] = applyChunkMsg msgs[i] mid c := by
      unfold applyChunk
      simp [List.getElem_map]
    show (applyChunks (applyChunk msgs mid c) mid cs)[i] = _
    rw [ih (applyChunk msgs mid c) h0 h1, hmap]
    rfl

/-- Streamed updates preserve a true previewable flag together with the
invariant that a tracked message's text contains the marker. -/
theorem applyChunkMsg_preserves (m : Message) (mid c : String)
    (hflag : m.isPreviewable = true)
    (hinv : m.id = mid → strIncludes m.text htmlFenceMarker = true) :
    (applyChunkMsg m mid c).isPreviewable = true ∧
    ((applyChunkMsg m mid c).id = mid →
      strIncludes (applyChunkMsg m mid c).text htmlFenceMarker = true) := by
  unfold applyChunkMsg
  by_cases h : m.id = mid
  · rw [if_pos h]
    have hc := strIncludes_append c (hinv h)
    exact ⟨hc, fun _ => hc⟩
  · rw [if_neg h]
    exact ⟨hflag, hinv⟩

theorem foldl_applyChunkMsg_preserves (cs : List String) (m : Message) (mid : String)
    (hflag : m.isPreviewable = true)
    (hinv : m.id = mid → strIncludes m.text htmlFenceMarker = true) :
    (cs.foldl (fun m c => applyChunkMsg m mid c) m).isPreviewable = true := by
  induction cs generalizing m with
  | nil => exact hflag
  | cons c cs ih =>
    have step := applyChunkMsg_preserves m mid c hflag hinv
    exact ih (applyChunkMsg m mid c) step.1 step.2

/-- C8: the previewable flag is monotone during streaming: once an applied
fragment has turned it on, applying any further sequence of fragments keeps
it on, because the accumulated text only grows and substring containment is
preserved under appending. -/
theorem previewable_monotone (msgs : List Message) (mid c : String)
    (cs : List String) (i : Nat) (hi : i < msgs.length)
    (hi2 : i < (applyChunk msgs mid c).length)
    (hi3 : i < (applyChunks (applyChunk msgs mid c) mid cs).length)
    (hflag : ((applyChunk msgs mid c)[i]).isPreviewable = true) :
    ((applyChunks (applyChunk msgs mid c) mid cs)[i]).isPreviewable = true := by
  have hget : (applyChunk msgs mid c)[i] = applyChunkMsg msgs[i] mid c := by
    unfold applyChunk
    simp [List.getElem_map]
  rw [applyChunks_getElem cs (applyChunk msgs mid c) mid i hi2 hi3, hget]
  rw [hget] at hflag
  apply foldl_applyChunkMsg_preserves cs _ mid hflag
  intro hid
  unfold applyChunkMsg at hflag hid ⊢
  by_cases h : msgs[i].id = mid
  · rw [if_pos h] at hflag ⊢
    exact hflag
  · rw [if_neg h] at hid
    exact absurd hid h

/-- C8, witness: a flag turned on by an early fragment stays on after later
fragments that contain no marker. -/
theorem previewable_monotone_witness :
    ((applyChunks
        (applyChunk [{ id := "m1", role := Role.model, text := "", timestamp := 0 }]
          "m1" "```html<p>")
        "m1" ["more text", " and more"])[0]).isPreviewable = true := by
  apply previewable_monotone
    [{ id := "m1", role := Role.model, text := "", timestamp := 0 }]
    "m1" "```html<p>" ["more text", " and more"] 0 (by decide) (by decide) (by decide)
  decide

/-! ## Claim C5: the Model Gateway request parts. -/

/-- C5, counterexample: an attachment classified as text (`isText` set) whose
`textContent` is the empty string is sent as an inline binary-data part, not
as a filename-prefixed text part as the claim requires for text
attachments. -/
theorem gateway_parts_counterexample :
    ({ name := "notes.txt", type := "text/plain", data := "", preview := "",
       isText := true, textContent := some "" } : FileAttachment).isText = true ∧
    buildParts ""
      [{ name := "notes.txt", type := "text/plain", data := "", preview := "",
         isText := true, textContent := some "" }] =
      [RequestPart.inlineData "text/plain" ""] ∧
    RequestPart.inlineData "text/plain" "" ≠
      RequestPart.textPart ("[File: notes.txt]\n" ++ "" ++ "\n") := by
  refine ⟨rfl, by decide, by decide⟩

/-- C5, amended: the parts are, in list order, one part per attachment — a
filename-prefixed text part for an attachment with `isText` set and
non-empty `textContent`, an inline binary-data part otherwise (so for every
image attachment, and also for a text attachment whose `textContent` is
empty or missing) — followed by a text part holding the prompt if and only
if the prompt is non-empty. -/
theorem gateway_parts_characterization (prompt : String) (atts : List FileAttachment)
    (i : Nat) (hi : i < atts.length)
    (hi2 : i < (buildParts prompt atts).length) :
    ((buildParts prompt atts).length =
      atts.length + (if prompt = "" then 0 else 1)) ∧
    ((buildParts prompt atts)[i] = attPart atts[i]) ∧
    (atts[i].isText = false →
      (buildParts prompt atts)[i] =
        RequestPart.inlineData (atts[i]).type (atts[i]).data) ∧
    (∀ s : String, atts[i].isText = true → atts[i].textContent = some s → s ≠ "" →
      (buildParts prompt atts)[i] =
        RequestPart.textPart ("[File: " ++ (atts[i]).name ++ "]\n" ++ s ++ "\n")) ∧
    ((atts[i].textContent = none ∨ atts[i].textContent = some "") →
      (buildParts prompt atts)[i] =
        RequestPart.inlineData (atts[i]).type (atts[i]).data) ∧
    (prompt ≠ "" →
      (buildParts prompt atts).getLast? = some (RequestPart.textPart prompt)) ∧
    (prompt = "" → (buildParts prompt atts).length = atts.length) := by
  have hidx : (buildParts prompt atts)[i] = attPart atts[i] := by
    unfold buildParts
    rw [List.getElem_append_left (by simpa using hi)]
    simp [List.getElem_map]
  refine ⟨?_, hidx, ?_, ?_, ?_, ?_, ?_⟩
  · unfold buildParts
    by_cases hp : prompt = "" <;> simp [hp]
  · intro h
    rw [hidx]
    unfold attPart attTextTruthy
    rw [if_neg (by simp [h])]
  · intro s htx hc hne
    rw [hidx]
    unfold attPart attTextTruthy
    rw [if_pos (by simp [htx, hc, hne]), hc]
    rfl
  · intro hc
    rw [hidx]
    unfold attPart attTextTruthy
    rcases hc with hc | hc <;> rw [if_neg (by simp [hc])]
  · intro hp
    unfold buildParts
    rw [if_pos hp, List.getLast?_concat]
  · intro hp
    unfold buildParts
    simp [hp]

/-- C5, witness: an image attachment, a non-empty text attachment and a
non-empty prompt produce inline data, a filename-prefixed text part and the
prompt part, in that order. -/
theorem gateway_parts_characterization_witness :
    buildParts "make it blue"
        [{ name := "shot.png", type := "image/png", data := "QUJD", preview := "p" },
         { name := "app.js", type := "text/plain", data := "eA==", preview := "",
           isText := true, textContent := some "let x = 1" }] =
      [RequestPart.inlineData "image/png" "QUJD",
       RequestPart.textPart ("[File: app.js]\n" ++ "let x = 1" ++ "\n"),
       RequestPart.textPart "make it blue"] := by
  have h0 := gateway_parts_characterization "make it blue"
      [{ name := "shot.png", type := "image/png", data := "QUJD", preview := "p" },
       { name := "app.js", type := "text/plain", data := "eA==", preview := "",
         isText := true, textContent := some "let x = 1" }] 0 (by decide) (by decide)
  have h1 := (h0.2.2.1 rfl)
  have h2 := gateway_parts_characterization "make it blue"
      [{ name := "shot.png", type := "image/png", data := "QUJD", preview := "p" },
       { name := "app.js", type := "text/plain", data := "eA==", preview := "",
         isText := true, textContent := some "let x = 1" }] 1 (by decide) (by decide)
  have h3 := h2.2.2.2.1 "let x = 1" rfl rfl (by decide)
  decide

/-! ## Claim C1: composite document assembly. -/

theorem replaceFirst_of_split {s pat rep : String} {b a : List Char}
    (h : splitFirst s.data pat.data = some (b, a)) :
    replaceFirst s pat rep = String.mk (b ++ rep.data ++ a) := by
  unfold replaceFirst
  rw [h]

theorem cssStep_inject {h : String} (css : String) {b a : List Char}
    (hns : strIncludes h "<style>" = false)
    (hsp : splitFirst h.data (String.data "</head>") = some (b, a)) :
    cssStep h (some css) =
      String.mk (b ++ String.data ("<style>" ++ css ++ "</style></head>") ++ a) := by
  show (if strIncludes h "<style>" = true then h
    else replaceFirst h "</head>" ("<style>" ++ css ++ "</style></head>")) = _
  rw [if_neg (by simp [hns]), replaceFirst_of_split hsp]

theorem jsStep_inject {h : String} (js : String) {b a : List Char}
    (hns : strIncludes h "<script>" = false)
    (hsp : splitFirst h.data (String.data "</body>") = some (b, a)) :
    jsStep h (some js) =
      String.mk (b ++ String.data ("<script>" ++ js ++ "</script></body>") ++ a) := by
  show (if strIncludes h "<script>" = true then h
    else replaceFirst h "</body>" ("<script>" ++ js ++ "</script></body>")) = _
  rw [if_neg (by simp [hns]), replaceFirst_of_split hsp]

/-- C1: when the model text has an html fence (whose body contains a closing
head tag and, after css injection, a closing body tag) together with css and
js fences, and the html body has no style tag and the css-injected document
has no script tag, the composite document is the html body with the style
block holding the css inserted immediately before the first closing head tag
and the script block holding the js inserted immediately before the first
closing body tag; and whenever the html fence body already contains a style
tag, the css fence is not injected (the composite does not depend on it). -/
theorem fence_extraction_injection (text html css js : String) (b1 a1 b2 a2 : List Char)
    (hHtml : firstFence text "html" = some html)
    (hCss : firstFence text "css" = some css)
    (hJs : firstFenceJs text = some js)
    (hNoStyle : strIncludes html "<style>" = false)
    (hHead : splitFirst html.data (String.data "</head>") = some (b1, a1))
    (hNoScript :
      strIncludes
        (String.mk (b1 ++ String.data ("<style>" ++ css ++ "</style></head>") ++ a1))
        "<script>" = false)
    (hBody :
      splitFirst (b1 ++ String.data ("<style>" ++ css ++ "</style></head>") ++ a1)
        (String.data "</body>") = some (b2, a2)) :
    (buildComposite text =
      some (String.mk (b2 ++ String.data ("<script>" ++ js ++ "</script></body>") ++ a2))) ∧
    (∀ text2 html2, firstFence text2 "html" = some html2 →
      strIncludes html2 "<style>" = true →
      buildComposite text2 = some (jsStep html2 (firstFenceJs text2))) := by
  constructor
  · have hb : buildComposite text =
        some (jsStep (cssStep html (firstFence text "css")) (firstFenceJs text)) := by
      unfold buildComposite
      rw [hHtml]
    have hcs : cssStep html (some css) =
        String.mk (b1 ++ String.data ("<style>" ++ css ++ "</style></head>") ++ a1) :=
      cssStep_inject css hNoStyle hHead
    have hjs2 : jsStep
        (String.mk (b1 ++ String.data ("<style>" ++ css ++ "</style></head>") ++ a1))
        (some js) =
        String.mk (b2 ++ String.data ("<script>" ++ js ++ "</script></body>") ++ a2) :=
      jsStep_inject js hNoScript hBody
    rw [hb, hCss, hJs, hcs, hjs2]
  · intro text2 html2 h1 h2
    have hb : buildComposite text2 =
        some (jsStep (cssStep html2 (firstFence text2 "css")) (firstFenceJs text2)) := by
      unfold buildComposite
      rw [h1]
    rw [hb]
    have hcs : cssStep html2 (firstFence text2 "css") = html2 := by
      cases hcc : firstFence text2 "css" with
      | none => rfl
      | some c =>
        show (if strIncludes html2 "<style>" = true then html2
          else replaceFirst html2 "</head>" ("<style>" ++ c ++ "</style></head>")) = html2
        rw [if_pos h2]
    rw [hcs]

/-- C1, witness: a reply with html, css and js fences assembles the expected
composite document with the style block before the closing head tag and the
script block before the closing body tag. -/
theorem fence_extraction_injection_witness :
    buildComposite
        "Sure! ```html<html><head></head><body>Hello</body></html>``` plus ```css h1 red``` plus ```js go()```" =
      some "<html><head><style> h1 red</style></head><body>Hello<script> go()</script></body></html>" := by
  have h := (fence_extraction_injection
    "Sure! ```html<html><head></head><body>Hello</body></html>``` plus ```css h1 red``` plus ```js go()```"
    "<html><head></head><body>Hello</body></html>" " h1 red" " go()"
    (String.data "<html><head>") (String.data "<body>Hello</body></html>")
    (String.data "<html><head><style> h1 red</style></head><body>Hello")
    (String.data "</html>")
    (by decide) (by decide) (by decide) (by decide) (by decide) (by decide)
    (by decide)).1
  rw [h]
  decide
